import Mathlib

/-!
Verification development for the compiler-quirks-gallery scenario harness:
the Annotation Model, Matrix Resolver, Pattern Verifier and Run Aggregator
described in the repository's design document, together with the concrete
`@gallery-hints` descriptor blocks carried by the fixture corpus.

The repository itself ships only the fixture sources; the harness components
are given by the design document, so every harness definition below is
modelled from the spec (each doc comment says so).  The descriptor blocks in
`CorpusBlocks` are transcribed verbatim from the fixture files under `src/`.
-/

namespace Gallery

/-- Modelled from the spec: the error taxonomy of the Annotation Model
(§4.1): `MalformedKey`, `ConflictingFlagMode`, `DuplicateKey`. -/
inductive DescriptorError where
  | malformedKey
  | conflictingFlagMode
  | duplicateKey
deriving DecidableEq, Repr

/-- Modelled from the spec (§3): a fixture's declarative scenario
descriptor.  `extraFlags` is the (possibly empty) ordered token sequence
appended to a scenario's baseline flags; `replaceFlags`, when present, fully
overrides the baseline flags; `compilerOnly` / `compilerExclude` are
allow/deny lists of toolchain-identifier patterns; `scenarioExclude` lists
optimization-scenario labels to skip. -/
structure ScenarioDescriptor where
  extraFlags : List String := []
  replaceFlags : Option (List String) := none
  compilerOnly : List String := []
  compilerExclude : List String := []
  scenarioExclude : List String := []
deriving DecidableEq, Repr

/-- Splits a character list at spaces and commas; separator runs yield empty
pieces which the tokenizer discards. -/
def splitSeps : List Char → List Char → List (List Char)
  | [], acc => [acc.reverse]
  | c :: rest, acc =>
    if c = ' ' ∨ c = ',' then acc.reverse :: splitSeps rest [] else splitSeps rest (c :: acc)

/-- Modelled from the spec (§6): each descriptor value is a whitespace- or
comma-separated token list.  Empty pieces (from separator runs) are dropped,
so a produced token is never the empty string. -/
def tokenize (v : String) : List String :=
  ((splitSeps v.toList []).map fun cs => String.mk cs).filter fun t => t ≠ ""

/-- Modelled from the spec (§6): the five recognized `@gallery-hints` keys. -/
def recognizedKeys : List String :=
  ["extra-flags", "replace-flags", "compiler-only", "compiler-exclude", "scenario-exclude"]

/-- The keys of a raw descriptor block (a block is a list of key/value
lines, already split at the `:`). -/
def blockKeys (kvs : List (String × String)) : List String :=
  kvs.map Prod.fst

/-- Modelled from the spec (§4.1, §6): deserialize one fixture's descriptor
block into a typed `ScenarioDescriptor`.  Unknown keys are `MalformedKey`;
a key used twice is `DuplicateKey`; setting both `extra-flags` and
`replace-flags` is `ConflictingFlagMode`.  The tokenizer never yields empty
tokens, so token well-formedness holds by construction. -/
def parseDescriptor (kvs : List (String × String)) : Except DescriptorError ScenarioDescriptor :=
  if ∃ k ∈ blockKeys kvs, k ∉ recognizedKeys then
    .error .malformedKey
  else if ¬ (blockKeys kvs).Nodup then
    .error .duplicateKey
  else if ("extra-flags" ∈ blockKeys kvs ∧ "replace-flags" ∈ blockKeys kvs) then
    .error .conflictingFlagMode
  else
    .ok
      { extraFlags := ((kvs.lookup "extra-flags").map tokenize).getD []
        replaceFlags := (kvs.lookup "replace-flags").map tokenize
        compilerOnly := ((kvs.lookup "compiler-only").map tokenize).getD []
        compilerExclude := ((kvs.lookup "compiler-exclude").map tokenize).getD []
        scenarioExclude := ((kvs.lookup "scenario-exclude").map tokenize).getD [] }

/-- Modelled from the spec (§3): a toolchain profile.  The identifier is the
vendor+version+architecture triple rendered as a string; `vendor` and
`version` expose the family and ordering the Run Aggregator needs; `baseline`
keys flag sets by optimization-scenario label. -/
structure ToolchainProfile where
  identifier : String
  vendor : String
  version : Nat
  baseline : List (String × List String) := []
deriving DecidableEq, Repr

/-- The toolchain's baseline flags for a scenario label. -/
def ToolchainProfile.baselineFor (t : ToolchainProfile) (label : String) : List String :=
  (t.baseline.lookup label).getD []

/-- Modelled from the spec (§3): an optimization scenario, identified by its
label; its baseline flags live in each `ToolchainProfile`. -/
structure OptimizationScenario where
  label : String
deriving DecidableEq, Repr

/-- Modelled from the spec (§9): `compiler-only` / `compiler-exclude`
pattern matching is a small closed matcher — exact identifier, or
prefix/family match. -/
def matchesPattern (pat ident : String) : Bool :=
  pat == ident || pat.isPrefixOf ident

/-- Modelled from the spec (§3): a matrix cell's inclusion decision. -/
inductive InclusionState where
  | included
  | skippedCompilerNotAllowed
  | skippedCompilerExcluded
  | skippedScenarioExcluded
deriving DecidableEq, Repr

/-- Modelled from the spec (§3): one resolved (fixture, toolchain, scenario)
cell with its final flag tokens and inclusion decision. -/
structure MatrixCell where
  fixtureId : String
  toolchainId : String
  scenarioLabel : String
  resolvedFlags : List String
  inclusionState : InclusionState
deriving DecidableEq, Repr

/-- Modelled from the spec (§3): an instruction of the disassembled stream —
a mnemonic plus operand text. -/
structure Instr where
  mnemonic : String
  operands : String
deriving DecidableEq, Repr

/-- Modelled from the spec (§3): the pattern payload of an assertion — a
mnemonic predicate, or an ordered predicate list for `MustContainInOrder`. -/
inductive PatternSpec where
  | mustContain (p : Instr → Bool)
  | mustNotContain (p : Instr → Bool)
  | mustContainInOrder (ps : List (Instr → Bool))

/-- Modelled from the spec (§3): the optional `appliesTo` restriction of an
assertion — a subset of scenario labels and toolchain identifiers. -/
structure AppliesTo where
  scenarios : List String
  toolchains : List String

/-- Modelled from the spec (§3): a declarative pattern assertion. -/
structure PatternAssertion where
  pattern : PatternSpec
  appliesTo : Option AppliesTo := none

/-- Modelled from the spec (§3): one fixture of the corpus — a stable id,
its opaque source text, its assertions, and its (optional, defaulted)
scenario descriptor. -/
structure FixtureCase where
  id : String
  sourceText : String := ""
  assertions : List PatternAssertion := []
  descriptor : ScenarioDescriptor := {}

/-- Lower-cases a string character by character (structurally, via the
character list). -/
def toLowerStr (s : String) : String :=
  String.mk (s.toList.map Char.toLower)

/-- Modelled from the spec (§4.2 step 2): scenario exclusion is a
case-insensitive exact label match. -/
def scenarioExcluded (d : ScenarioDescriptor) (label : String) : Bool :=
  d.scenarioExclude.any fun l => toLowerStr l == toLowerStr label

/-- Modelled from the spec (§4.2 steps 1–3): the inclusion decision for one
(fixture, toolchain, scenario) triple.  A non-empty `compilerOnly` is
checked first and, when it matches, the deny-list is never consulted
(allow-list precedence); a toolchain skip preempts the scenario check. -/
def inclusionOf (d : ScenarioDescriptor) (t : ToolchainProfile) (s : OptimizationScenario) :
    InclusionState :=
  let scenarioCheck : InclusionState :=
    if scenarioExcluded d s.label then .skippedScenarioExcluded else .included
  if d.compilerOnly ≠ [] then
    if d.compilerOnly.any (fun p => matchesPattern p t.identifier) then scenarioCheck
    else .skippedCompilerNotAllowed
  else if d.compilerExclude.any (fun p => matchesPattern p t.identifier) then
    .skippedCompilerExcluded
  else scenarioCheck

/-- Modelled from the spec (§4.2 step 3): resolved flags for an Included
cell — `replaceFlags` verbatim when set, else the toolchain's baseline flags
for the scenario label with `extraFlags` appended; duplicates preserved. -/
def resolvedFlagsOf (d : ScenarioDescriptor) (t : ToolchainProfile)
    (s : OptimizationScenario) : List String :=
  match d.replaceFlags with
  | some rf => rf
  | none => t.baselineFor s.label ++ d.extraFlags

/-- Modelled from the spec (§4.2): the matrix cell for one triple.  Skipped
cells carry no resolved flags (flag resolution happens only for Included
cells). -/
def resolveCell (f : FixtureCase) (t : ToolchainProfile) (s : OptimizationScenario) :
    MatrixCell :=
  let st := inclusionOf f.descriptor t s
  { fixtureId := f.id
    toolchainId := t.identifier
    scenarioLabel := s.label
    resolvedFlags := if st = .included then resolvedFlagsOf f.descriptor t s else []
    inclusionState := st }

/-- Lexicographic `≤` on the (fixture id, toolchain identifier, scenario
label) key of a cell, the spec's deterministic output order (§4.2). -/
def cellLE (a b : MatrixCell) : Bool :=
  a.fixtureId < b.fixtureId ||
    (a.fixtureId == b.fixtureId &&
      (a.toolchainId < b.toolchainId ||
        (a.toolchainId == b.toolchainId && a.scenarioLabel ≤ b.scenarioLabel)))

/-- Inserts a cell into a `cellLE`-sorted list, keeping it sorted. -/
def insertCell (c : MatrixCell) : List MatrixCell → List MatrixCell
  | [] => [c]
  | d :: rest => if cellLE c d then c :: d :: rest else d :: insertCell c rest

/-- Insertion sort by the lexicographic cell order. -/
def sortCells : List MatrixCell → List MatrixCell
  | [] => []
  | c :: rest => insertCell c (sortCells rest)

/-- Modelled from the spec (§4.2): `resolve` expands fixtures × toolchains ×
scenarios into one `MatrixCell` per triple — skipped cells retained — and
orders the output lexicographically by (fixture id, toolchain identifier,
scenario label). -/
def resolve (fixtures : List FixtureCase) (toolchains : List ToolchainProfile)
    (scenarios : List OptimizationScenario) : List MatrixCell :=
  sortCells
    (fixtures.flatMap fun f =>
      toolchains.flatMap fun t => scenarios.map fun s => resolveCell f t s)

/-- Modelled from the spec (§3): per-assertion outcome. -/
inductive AssertionOutcome where
  | pass
  | fail
  | inapplicable
deriving DecidableEq, Repr

/-- Modelled from the spec (§3): overall verdict of a cell. -/
inductive Verdict where
  | pass
  | fail
  | skip
deriving DecidableEq, Repr

/-- An invocation of one of the verifier's external collaborators; the
verifier returns the ordered log of the invocations it made, so that "never
invoked" is a statement about the log. -/
inductive CollabCall where
  | compileCall
  | disassembleCall
deriving DecidableEq, Repr

/-- Modelled from the spec (§4.3): greedy subsequence matching for
`MustContainInOrder` — consume the stream left to right, advancing to the
next predicate at the first instruction the current predicate matches. -/
def inOrderMatch : List (Instr → Bool) → List Instr → Bool
  | [], _ => true
  | _ :: _, [] => false
  | p :: ps, i :: stream =>
    if p i then inOrderMatch ps stream else inOrderMatch (p :: ps) stream

/-- Modelled from the spec (§4.3): evaluation of one pattern against an
ordered instruction stream. -/
def evalPattern : PatternSpec → List Instr → Bool
  | .mustContain p, stream => stream.any p
  | .mustNotContain p, stream => !stream.any p
  | .mustContainInOrder ps, stream => inOrderMatch ps stream

/-- Modelled from the spec (§4.3): an assertion applies to a cell when its
`appliesTo` is absent, or names both the cell's scenario label and its
toolchain identifier. -/
def applicableTo (a : PatternAssertion) (cell : MatrixCell) : Bool :=
  match a.appliesTo with
  | none => true
  | some ap => ap.scenarios.contains cell.scenarioLabel && ap.toolchains.contains cell.toolchainId

/-- Modelled from the spec (§3): the verifier's result for one cell.
Diagnostic text is abstracted to an optional string. -/
structure VerificationResult where
  cell : MatrixCell
  outcomes : List AssertionOutcome
  overall : Verdict
  diagnostic : Option String

/-- Modelled from the spec (§4.3): `verify` for one cell, instrumented with
the ordered log of collaborator invocations.  Cells not Included yield Skip
with an empty log; a compile diagnostic yields Fail with no assertions
evaluated; otherwise the stream is disassembled and every applicable
assertion is evaluated, the overall verdict Pass iff all applicable
assertions pass. -/
def verify (cell : MatrixCell) (fixture : FixtureCase)
    (compile : String → List String → Except String String)
    (disassemble : String → List Instr) : VerificationResult × List CollabCall :=
  if cell.inclusionState ≠ .included then
    ({ cell := cell, outcomes := [], overall := .skip, diagnostic := none }, [])
  else
    match compile fixture.sourceText cell.resolvedFlags with
    | .error diag =>
      ({ cell := cell, outcomes := [], overall := .fail, diagnostic := some diag },
        [.compileCall])
    | .ok artifact =>
      let stream := disassemble artifact
      let outcomes := fixture.assertions.map fun a =>
        if applicableTo a cell then
          if evalPattern a.pattern stream then AssertionOutcome.pass else AssertionOutcome.fail
        else AssertionOutcome.inapplicable
      let ok := outcomes.all fun o => o ≠ .fail
      ({ cell := cell, outcomes := outcomes,
         overall := if ok then .pass else .fail
         diagnostic := if ok then none else some "pattern assertion failed" },
        [.compileCall, .disassembleCall])

/-- Modelled from the spec (§4.4): one per-assertion verdict record as the
Run Aggregator sees it — fixture id, assertion identity, the toolchain's
vendor family and version, and the Pass/Fail outcome. -/
structure AssertionRecord where
  fixtureId : String
  assertionId : String
  vendor : String
  version : Nat
  outcome : AssertionOutcome
deriving DecidableEq, Repr

/-- Modelled from the spec (§3, §4.4): a detected regression — same fixture
and assertion, Pass on an older toolchain version, Fail on a newer one
within the same vendor family. -/
structure Regression where
  fixtureId : String
  assertionId : String
  vendor : String
  fromVersion : Nat
  toVersion : Nat
deriving DecidableEq, Repr

/-- Whether the ordered pair of records is a Pass-to-Fail transition to a
newer version within the same vendor family, for the same fixture and
assertion. -/
def regressionPair (a b : AssertionRecord) : Bool :=
  a.fixtureId == b.fixtureId && a.assertionId == b.assertionId && a.vendor == b.vendor &&
    a.version < b.version && a.outcome == .pass && b.outcome == .fail

/-- The regression entry the pair (older Pass record, newer Fail record)
gives rise to. -/
def mkRegression (a b : AssertionRecord) : Regression :=
  { fixtureId := a.fixtureId, assertionId := a.assertionId, vendor := a.vendor,
    fromVersion := a.version, toVersion := b.version }

/-- Modelled from the spec (§4.4): the aggregator's regression list —
grouping results by (fixture id, assertion identity) and flagging every
Pass-to-Fail transition to a newer toolchain version within the same vendor
family.  (Fail-to-Pass improvements are out of scope here.) -/
def regressionsOf (rs : List AssertionRecord) : List Regression :=
  rs.flatMap fun a =>
    rs.flatMap fun b =>
      if regressionPair a b then [mkRegression a b] else []

/-- A raw fixture as loaded from the corpus: an id and its (possibly empty)
`@gallery-hints` key/value block. -/
structure RawFixture where
  id : String
  block : List (String × String) := []
  sourceText : String := ""
deriving DecidableEq, Repr

/-- Modelled from the spec (§4.1, §7): corpus load — a malformed descriptor
invalidates only its owning fixture; every fixture whose block parses
becomes a `FixtureCase`, the rest are excluded and the run continues. -/
def loadCorpus (raws : List RawFixture) : List FixtureCase :=
  raws.filterMap fun r =>
    match parseDescriptor r.block with
    | .ok d => some { id := r.id, sourceText := r.sourceText, descriptor := d }
    | .error _ => none

/-- Transcribed from `src/hardening/cf-protection.c` lines 1–4. -/
def blockCfProtection : List (String × String) :=
  [("extra-flags", "-fcf-protection=full"),
   ("compiler-only", "cg152, clang1910")]

/-- Transcribed from `src/hardening/fortify-source.c` lines 1–5. -/
def blockFortifySource : List (String × String) :=
  [("extra-flags", "-D_FORTIFY_SOURCE=2"),
   ("compiler-only", "cg152, clang1910"),
   ("scenario-exclude", "O0")]

/-- Transcribed from `src/hardening/fortify-sprintf.c` lines 1–5. -/
def blockFortifySprintf : List (String × String) :=
  [("extra-flags", "-D_FORTIFY_SOURCE=2"),
   ("compiler-only", "cg152, clang1910"),
   ("scenario-exclude", "O0")]

/-- Transcribed from `src/hardening/msvc-gs-canary.c` lines 1–4. -/
def blockMsvcGsCanary : List (String × String) :=
  [("replace-flags", "/O2 /GS"),
   ("compiler-only", "vc_v19_44_VS17_14_x64, vc_v19_44_VS17_14_x86")]

/-- Transcribed from `src/hardening/msvc-guard-cf.c` lines 1–4. -/
def blockMsvcGuardCf : List (String × String) :=
  [("replace-flags", "/O2 /guard:cf"),
   ("compiler-only", "vc_v19_44_VS17_14_x64, vc_v19_44_VS17_14_x86")]

/-- Transcribed from `src/hardening/msvc-qspectre.c` lines 1–4. -/
def blockMsvcQspectre : List (String × String) :=
  [("replace-flags", "/O2 /Qspectre"),
   ("compiler-only", "vc_v19_44_VS17_14_x64, vc_v19_44_VS17_14_x86")]

/-- Transcribed from `src/hardening/stack-clash.c` lines 1–4. -/
def blockStackClash : List (String × String) :=
  [("extra-flags", "-fstack-clash-protection"),
   ("compiler-exclude", "vc_v19_44_VS17_14_x64, vc_v19_44_VS17_14_x86, avrg1520")]

/-- Transcribed from `src/hardening/stack-protector.c` lines 1–4. -/
def blockStackProtector : List (String × String) :=
  [("extra-flags", "-fstack-protector-all"),
   ("compiler-exclude", "vc_v19_44_VS17_14_x64, vc_v19_44_VS17_14_x86")]

/-- Transcribed from `src/hardening/zero-call-used-regs.c` lines 1–4. -/
def blockZeroCallUsedRegs : List (String × String) :=
  [("extra-flags", "-fzero-call-used-regs=used"),
   ("compiler-only", "cg152, clang1910")]

/-- Transcribed from `src/security/wrapv-vs-ubsan.c` lines 1–3. -/
def blockWrapvVsUbsan : List (String × String) :=
  [("extra-flags", "-fwrapv")]

/-- The ten `@gallery-hints` descriptor blocks present in the fixture
corpus, keyed by fixture path. -/
def corpusBlocks : List (String × List (String × String)) :=
  [("src/hardening/cf-protection.c", blockCfProtection),
   ("src/hardening/fortify-source.c", blockFortifySource),
   ("src/hardening/fortify-sprintf.c", blockFortifySprintf),
   ("src/hardening/msvc-gs-canary.c", blockMsvcGsCanary),
   ("src/hardening/msvc-guard-cf.c", blockMsvcGuardCf),
   ("src/hardening/msvc-qspectre.c", blockMsvcQspectre),
   ("src/hardening/stack-clash.c", blockStackClash),
   ("src/hardening/stack-protector.c", blockStackProtector),
   ("src/hardening/zero-call-used-regs.c", blockZeroCallUsedRegs),
   ("src/security/wrapv-vs-ubsan.c", blockWrapvVsUbsan)]

/-- Every token mentioned by a descriptor, across all five fields. -/
def ScenarioDescriptor.allTokens (d : ScenarioDescriptor) : List String :=
  d.extraFlags ++ d.replaceFlags.getD [] ++ d.compilerOnly ++ d.compilerExclude ++
    d.scenarioExclude

/-- A parse outcome is well-formed when it succeeded and the resulting
descriptor has no empty flag token and does not combine verbatim replacement
with appended extras. -/
def wellFormedParse (e : Except DescriptorError ScenarioDescriptor) : Bool :=
  match e with
  | .error _ => false
  | .ok d => d.allTokens.all (fun t => t ≠ "") && !(d.replaceFlags.isSome && !d.extraFlags.isEmpty)

/-! ### Semantics of pattern assertions -/

/-- The spec-side reading of `MustContainInOrder` (§4.3): the ordered
predicate list can be matched against a not-necessarily-contiguous
subsequence of the instruction stream, preserving relative order. -/
def SubseqMatch (ps : List (Instr → Bool)) (stream : List Instr) : Prop :=
  ∃ t, t.Sublist stream ∧ List.Forall₂ (fun p i => p i = true) ps t

lemma subseqMatch_drop {p : Instr → Bool} {ps : List (Instr → Bool)} {stream : List Instr}
    (h : SubseqMatch (p :: ps) stream) : SubseqMatch ps stream := by
  obtain ⟨t, hsub, hf⟩ := h
  obtain ⟨i, t', hpi, hf', rfl⟩ := List.forall₂_cons_left_iff.mp hf
  exact ⟨t', (List.sublist_cons_self i t').trans hsub, hf'⟩

lemma inOrderMatch_iff (ps : List (Instr → Bool)) (stream : List Instr) :
    inOrderMatch ps stream = true ↔ SubseqMatch ps stream := by
  induction stream generalizing ps with
  | nil =>
    cases ps with
    | nil =>
      exact ⟨fun _ => ⟨[], List.Sublist.refl [], List.Forall₂.nil⟩, fun _ => rfl⟩
    | cons p ps =>
      constructor
      · intro h
        exact absurd h (by simp [inOrderMatch])
      · rintro ⟨t, hsub, hf⟩
        rw [List.sublist_nil.mp hsub] at hf
        exact absurd (List.forall₂_nil_right_iff.mp hf) (List.cons_ne_nil p ps)
  | cons i is ih =>
    cases ps with
    | nil =>
      exact ⟨fun _ => ⟨[], List.nil_sublist _, List.Forall₂.nil⟩, fun _ => rfl⟩
    | cons p ps =>
      rw [inOrderMatch]
      by_cases hpi : p i = true
      · rw [if_pos hpi, ih]
        constructor
        · rintro ⟨t, hsub, hf⟩
          exact ⟨i :: t, hsub.cons₂ i, List.Forall₂.cons hpi hf⟩
        · rintro ⟨t, hsub, hf⟩
          rcases List.sublist_cons_iff.mp hsub with h | ⟨r, rfl, hr⟩
          · exact subseqMatch_drop ⟨t, h, hf⟩
          · obtain ⟨_, hf'⟩ := List.forall₂_cons.mp hf
            exact ⟨r, hr, hf'⟩
      · rw [if_neg hpi, ih]
        constructor
        · rintro ⟨t, hsub, hf⟩
          exact ⟨t, hsub.cons i, hf⟩
        · rintro ⟨t, hsub, hf⟩
          rcases List.sublist_cons_iff.mp hsub with h | ⟨r, rfl, hr⟩
          · exact ⟨t, h, hf⟩
          · obtain ⟨hpi', _⟩ := List.forall₂_cons.mp hf
            exact absurd hpi' hpi

/-- An instruction with the given mnemonic and empty operand text. -/
def sampleInstr (m : String) : Instr :=
  { mnemonic := m, operands := "" }

/-- The mnemonic-equality predicate on instructions. -/
def mnem (m : String) : Instr → Bool :=
  fun i => i.mnemonic == m

/-- C5: a `MustContainInOrder` assertion with pattern list `P` passes on a
stream `S` iff `P` matches a not-necessarily-contiguous subsequence of `S`
preserving relative order; in particular patterns [A, B] pass against the
stream [X, A, Y, B, Z] and fail against [B, A]. -/
theorem mustContainInOrder_subsequence_semantics :
    (∀ (ps : List (Instr → Bool)) (stream : List Instr),
        evalPattern (.mustContainInOrder ps) stream = true ↔ SubseqMatch ps stream) ∧
      evalPattern (.mustContainInOrder [mnem "A", mnem "B"])
          [sampleInstr "X", sampleInstr "A", sampleInstr "Y", sampleInstr "B",
            sampleInstr "Z"] = true ∧
      evalPattern (.mustContainInOrder [mnem "A", mnem "B"])
          [sampleInstr "B", sampleInstr "A"] = false :=
  ⟨fun ps stream => inOrderMatch_iff ps stream, by decide, by decide⟩

/-- C6: `MustContain` passes iff some instruction of the stream matches the
pattern predicate and `MustNotContain` passes iff none does; hence on the
empty stream every `MustContain` fails and every `MustNotContain` passes. -/
theorem mustContain_mustNotContain_semantics :
    (∀ (p : Instr → Bool) (stream : List Instr),
        (evalPattern (.mustContain p) stream = true ↔ ∃ i ∈ stream, p i = true) ∧
          (evalPattern (.mustNotContain p) stream = true ↔ ∀ i ∈ stream, ¬ p i = true)) ∧
      ∀ p : Instr → Bool,
        evalPattern (.mustContain p) [] = false ∧ evalPattern (.mustNotContain p) [] = true := by
  refine ⟨fun p stream => ⟨?_, ?_⟩, fun p => ⟨rfl, rfl⟩⟩
  · simp [evalPattern, List.any_eq_true]
  · simp [evalPattern, List.any_eq_true]

/-! ### Matrix Resolver theorems -/

lemma insertCell_perm (c : MatrixCell) (l : List MatrixCell) :
    (insertCell c l).Perm (c :: l) := by
  induction l with
  | nil => exact List.Perm.refl _
  | cons d rest ih =>
    rw [insertCell]
    by_cases h : cellLE c d = true
    · rw [if_pos h]
    · rw [if_neg h]
      exact (ih.cons d).trans (List.Perm.swap c d rest)

lemma sortCells_perm (l : List MatrixCell) : (sortCells l).Perm l := by
  induction l with
  | nil => exact List.Perm.refl _
  | cons c rest ih => exact (insertCell_perm c (sortCells rest)).trans (ih.cons c)

lemma mem_resolve {fs : List FixtureCase} {ts : List ToolchainProfile}
    {ss : List OptimizationScenario} {c : MatrixCell} :
    c ∈ resolve fs ts ss ↔ ∃ f ∈ fs, ∃ t ∈ ts, ∃ s ∈ ss, resolveCell f t s = c := by
  rw [resolve, List.Perm.mem_iff (sortCells_perm _)]
  simp [List.mem_flatMap, List.mem_map]

lemma inclusionState_resolveCell (f : FixtureCase) (t : ToolchainProfile)
    (s : OptimizationScenario) :
    (resolveCell f t s).inclusionState = inclusionOf f.descriptor t s := rfl

lemma resolvedFlags_of_included {f : FixtureCase} {t : ToolchainProfile}
    {s : OptimizationScenario} (h : (resolveCell f t s).inclusionState = .included) :
    (resolveCell f t s).resolvedFlags = resolvedFlagsOf f.descriptor t s := by
  have hst : inclusionOf f.descriptor t s = .included := h
  show (if inclusionOf f.descriptor t s = InclusionState.included then
      resolvedFlagsOf f.descriptor t s else []) = _
  rw [if_pos hst]

lemma included_of_allow_match {d : ScenarioDescriptor} {t : ToolchainProfile}
    (s : OptimizationScenario) (hne : d.compilerOnly ≠ [])
    (hmatch : d.compilerOnly.any (fun p => matchesPattern p t.identifier) = true) :
    inclusionOf d t s =
      (if scenarioExcluded d s.label then .skippedScenarioExcluded else .included) := by
  rw [inclusionOf]
  simp only [if_pos hne, if_pos hmatch]

/-- C1 (amended): a toolchain matching a non-empty `compilerOnly` allow-list
is never skipped for a compiler-related reason, even when it also matches
`compilerExclude`; if moreover the scenario label is not excluded, the cell
is Included. -/
theorem allow_list_beats_deny_list (f : FixtureCase) (t : ToolchainProfile)
    (s : OptimizationScenario) (hne : f.descriptor.compilerOnly ≠ [])
    (hmatch : f.descriptor.compilerOnly.any (fun p => matchesPattern p t.identifier) = true) :
    (resolveCell f t s).inclusionState ≠ .skippedCompilerNotAllowed ∧
      (resolveCell f t s).inclusionState ≠ .skippedCompilerExcluded ∧
      (scenarioExcluded f.descriptor s.label = false →
        (resolveCell f t s).inclusionState = .included) := by
  rw [inclusionState_resolveCell, included_of_allow_match s hne hmatch]
  by_cases hse : scenarioExcluded f.descriptor s.label = true
  · rw [if_pos hse]
    refine ⟨by simp, by simp, fun hfalse => ?_⟩
    rw [hse] at hfalse
    cases hfalse
  · rw [if_neg hse]
    exact ⟨by simp, by simp, fun _ => rfl⟩

/-- A fixture whose descriptor allow-lists and deny-lists the same toolchain
and also excludes scenario label "O0". -/
def fixtureBothListsScenario : FixtureCase :=
  { id := "fx-both",
    descriptor :=
      { compilerOnly := ["toolA"], compilerExclude := ["toolA"], scenarioExclude := ["O0"] } }

/-- A fixture whose descriptor allow-lists and deny-lists the same toolchain
and has no scenario exclusion. -/
def fixtureBothLists : FixtureCase :=
  { id := "fx-both-plain",
    descriptor := { compilerOnly := ["toolA"], compilerExclude := ["toolA"] } }

/-- The toolchain both lists of the two fixtures above name. -/
def toolA : ToolchainProfile :=
  { identifier := "toolA", vendor := "toolA", version := 1,
    baseline := [("O0", ["-O0"]), ("O2", ["-O2"])] }

/-- The "O0" optimization scenario. -/
def scenO0 : OptimizationScenario := { label := "O0" }

/-- The "O2" optimization scenario. -/
def scenO2 : OptimizationScenario := { label := "O2" }

/-- C1 counterexample: a triple whose descriptor's `compilerOnly` is
non-empty and matches the toolchain (which also matches `compilerExclude`),
yet resolve does not mark the cell Included — the scenario exclusion still
skips it, so such a toolchain is not "never skipped". -/
theorem allow_list_beats_deny_list_counterexample :
    fixtureBothListsScenario.descriptor.compilerOnly ≠ [] ∧
      fixtureBothListsScenario.descriptor.compilerOnly.any
        (fun p => matchesPattern p toolA.identifier) = true ∧
      fixtureBothListsScenario.descriptor.compilerExclude.any
        (fun p => matchesPattern p toolA.identifier) = true ∧
      ∀ c ∈ resolve [fixtureBothListsScenario] [toolA] [scenO0],
        c.inclusionState ≠ InclusionState.included := by
  refine ⟨by decide, by decide, by decide, ?_⟩
  decide

/-- C1 witness: the amended statement at a concrete triple with no scenario
exclusion — matching both lists yields an Included cell. -/
theorem allow_list_beats_deny_list_witness :
    (resolveCell fixtureBothLists toolA scenO2).inclusionState ≠ .skippedCompilerNotAllowed ∧
      (resolveCell fixtureBothLists toolA scenO2).inclusionState ≠ .skippedCompilerExcluded ∧
      (scenarioExcluded fixtureBothLists.descriptor scenO2.label = false →
        (resolveCell fixtureBothLists toolA scenO2).inclusionState = .included) :=
  allow_list_beats_deny_list fixtureBothLists toolA scenO2 (by decide) (by decide)

/-- C2: every Included cell of `resolve` comes from a triple of the inputs,
and its resolved flags are `replaceFlags` verbatim when set, else the
toolchain's baseline flags for the scenario label with `extraFlags` appended
— with every duplicate token preserved (counts add, nothing deduplicated). -/
theorem included_cell_flag_resolution (fs : List FixtureCase) (ts : List ToolchainProfile)
    (ss : List OptimizationScenario) (c : MatrixCell) (hc : c ∈ resolve fs ts ss)
    (hinc : c.inclusionState = .included) :
    ∃ f ∈ fs, ∃ t ∈ ts, ∃ s ∈ ss, resolveCell f t s = c ∧
      (∀ rf, f.descriptor.replaceFlags = some rf → c.resolvedFlags = rf) ∧
      (f.descriptor.replaceFlags = none →
        c.resolvedFlags = t.baselineFor s.label ++ f.descriptor.extraFlags ∧
        ∀ tok, c.resolvedFlags.count tok =
          (t.baselineFor s.label).count tok + f.descriptor.extraFlags.count tok) := by
  obtain ⟨f, hf, t, ht, s, hs, hcell⟩ := mem_resolve.mp hc
  subst hcell
  have hflags := resolvedFlags_of_included hinc
  refine ⟨f, hf, t, ht, s, hs, rfl, ?_, ?_⟩
  · intro rf hrf
    rw [hflags, resolvedFlagsOf, hrf]
  · intro hnone
    rw [hflags, resolvedFlagsOf, hnone]
    exact ⟨rfl, fun tok => List.count_append tok _ _⟩

/-- A fixture carrying one extra flag and no other constraint. -/
def fixtureExtra : FixtureCase :=
  { id := "fx-extra", descriptor := { extraFlags := ["-fwrapv"] } }

/-- C2 witness: the flag-resolution statement at a concrete Included cell
whose descriptor appends one extra flag to the baseline. -/
theorem included_cell_flag_resolution_witness :
    ∃ f ∈ [fixtureExtra], ∃ t ∈ [toolA], ∃ s ∈ [scenO2],
      resolveCell f t s =
          { fixtureId := "fx-extra", toolchainId := "toolA", scenarioLabel := "O2",
            resolvedFlags := ["-O2", "-fwrapv"], inclusionState := .included } ∧
        (∀ rf, f.descriptor.replaceFlags = some rf →
          (["-O2", "-fwrapv"] : List String) = rf) ∧
        (f.descriptor.replaceFlags = none →
          (["-O2", "-fwrapv"] : List String) = t.baselineFor s.label ++
              f.descriptor.extraFlags ∧
          ∀ tok, (["-O2", "-fwrapv"] : List String).count tok =
            (t.baselineFor s.label).count tok + f.descriptor.extraFlags.count tok) :=
  included_cell_flag_resolution [fixtureExtra] [toolA] [scenO2]
    { fixtureId := "fx-extra", toolchainId := "toolA", scenarioLabel := "O2",
      resolvedFlags := ["-O2", "-fwrapv"], inclusionState := .included }
    (by decide) (by decide)

/-! ### Verifier skip behaviour -/

/-- C3: for a cell whose inclusion state is not Included, `verify` returns
the Skip verdict and invokes neither the compile collaborator nor the
disassemble collaborator (its invocation log is empty). -/
theorem verify_skips_non_included (cell : MatrixCell) (fixture : FixtureCase)
    (compileFn : String → List String → Except String String)
    (disassembleFn : String → List Instr)
    (h : cell.inclusionState ≠ .included) :
    (verify cell fixture compileFn disassembleFn).1.overall = .skip ∧
      (verify cell fixture compileFn disassembleFn).2 = [] := by
  rw [verify, if_pos h]
  exact ⟨rfl, rfl⟩

/-- C3 witness: a concrete skipped cell yields Skip and an empty
collaborator log, whatever the collaborators would do. -/
theorem verify_skips_non_included_witness :
    (verify
          { fixtureId := "fx", toolchainId := "toolA", scenarioLabel := "O0",
            resolvedFlags := [], inclusionState := .skippedScenarioExcluded }
          { id := "fx" } (fun _ _ => Except.ok "artifact") (fun _ => [])).1.overall =
        Verdict.skip ∧
      (verify
          { fixtureId := "fx", toolchainId := "toolA", scenarioLabel := "O0",
            resolvedFlags := [], inclusionState := .skippedScenarioExcluded }
          { id := "fx" } (fun _ _ => Except.ok "artifact") (fun _ => [])).2 = [] :=
  verify_skips_non_included _ _ _ _ (by decide)

/-! ### One cell per triple -/

/-- The Boolean test that a cell carries the key of the given triple. -/
def tripleKeyMatches (f : FixtureCase) (t : ToolchainProfile) (s : OptimizationScenario)
    (c : MatrixCell) : Bool :=
  c.fixtureId == f.id && c.toolchainId == t.identifier && c.scenarioLabel == s.label

lemma countP_flatMap {α β : Type} (l : List α) (g : α → List β) (p : β → Bool) :
    (l.flatMap g).countP p = (l.map fun a => (g a).countP p).sum := by
  induction l with
  | nil => rfl
  | cons a l ih => simp [List.flatMap_cons, List.countP_append, ih]

lemma sum_map_ite {α : Type} (l : List α) (q : α → Bool) (n : Nat) :
    (l.map fun a => if q a = true then n else 0).sum = l.countP q * n := by
  induction l with
  | nil => simp
  | cons a l ih =>
    by_cases h : q a = true
    · simp [h, ih, List.countP_cons, Nat.add_mul, Nat.add_comm]
    · simp [h, ih, List.countP_cons]

lemma countP_key_eq_one {α β : Type} [DecidableEq β] (g : α → β) (l : List α) (a : α)
    (hn : (l.map g).Nodup) (ha : a ∈ l) : l.countP (fun x => g x == g a) = 1 := by
  induction l with
  | nil => cases ha
  | cons b l ih =>
    rw [List.map_cons, List.nodup_cons] at hn
    rw [List.countP_cons]
    rcases List.mem_cons.mp ha with rfl | ha'
    · have hz : l.countP (fun x => g x == g a) = 0 := by
        rw [List.countP_eq_zero]
        intro x hx
        simp only [beq_iff_eq]
        intro hgx
        exact hn.1 (hgx ▸ List.mem_map_of_mem g hx)
      simp [hz]
    · have hne : ¬ (g b == g a) = true := by
        intro hba
        exact hn.1 ((beq_iff_eq.mp hba) ▸ List.mem_map_of_mem g ha')
      simp [ih hn.2 ha', hne]

/-- C4: over inputs whose fixture ids, toolchain identifiers and scenario
labels are duplicate-free, `resolve` emits exactly one MatrixCell for each
(fixture, toolchain, scenario) triple — skipped cells included, no triple
duplicated or dropped. -/
theorem resolve_one_cell_per_triple (fs : List FixtureCase) (ts : List ToolchainProfile)
    (ss : List OptimizationScenario) (f : FixtureCase) (t : ToolchainProfile)
    (s : OptimizationScenario) (hf : (fs.map FixtureCase.id).Nodup)
    (ht : (ts.map ToolchainProfile.identifier).Nodup)
    (hs : (ss.map OptimizationScenario.label).Nodup)
    (hfm : f ∈ fs) (htm : t ∈ ts) (hsm : s ∈ ss) :
    (resolve fs ts ss).countP (tripleKeyMatches f t s) = 1 := by
  rw [resolve, List.Perm.countP_eq _ (sortCells_perm _), countP_flatMap]
  have hcntS : ss.countP (fun x => x.label == s.label) = 1 :=
    countP_key_eq_one OptimizationScenario.label ss s hs hsm
  have hinner : ∀ (f' : FixtureCase) (t' : ToolchainProfile),
      ((ss.map fun s' => resolveCell f' t' s').countP (tripleKeyMatches f t s)) =
        if (f'.id == f.id && t'.identifier == t.identifier) = true then 1 else 0 := by
    intro f' t'
    rw [List.countP_map]
    by_cases h : (f'.id == f.id && t'.identifier == t.identifier) = true
    · rw [if_pos h]
      obtain ⟨h1, h2⟩ := Bool.and_eq_true_iff.mp h
      have : ((tripleKeyMatches f t s) ∘ fun s' => resolveCell f' t' s') =
          fun s' => s'.label == s.label := by
        funext s'
        simp [Function.comp, tripleKeyMatches, resolveCell, h1, h2]
      rw [this, hcntS]
    · rw [if_neg h, List.countP_eq_zero]
      intro s' _ habs
      simp only [Function.comp, tripleKeyMatches, resolveCell] at habs
      exact h (Bool.and_eq_true_iff.mp habs).1
  simp only [countP_flatMap, hinner]
  have houter : ∀ f' : FixtureCase,
      ((ts.map fun t' =>
          if (f'.id == f.id && t'.identifier == t.identifier) = true then 1 else 0).sum) =
        if (f'.id == f.id) = true then 1 else 0 := by
    intro f'
    by_cases h : (f'.id == f.id) = true
    · rw [if_pos h]
      have hrw : (fun t' : ToolchainProfile =>
          if (f'.id == f.id && t'.identifier == t.identifier) = true then 1 else 0) =
          fun t' => if (t'.identifier == t.identifier) = true then 1 else 0 := by
        funext t'
        simp [h]
      rw [hrw, sum_map_ite ts (fun t' => t'.identifier == t.identifier) 1,
        countP_key_eq_one ToolchainProfile.identifier ts t ht htm]
    · rw [if_neg h]
      have hrw : (fun t' : ToolchainProfile =>
          if (f'.id == f.id && t'.identifier == t.identifier) = true then 1 else 0) =
          fun _ => (0 : Nat) := by
        funext t'
        simp [h]
      rw [hrw]
      have hzero : ∀ l : List ToolchainProfile, (l.map fun _ => (0 : Nat)).sum = 0 := by
        intro l
        induction l with
        | nil => rfl
        | cons a l ih => simp [ih]
      exact hzero ts
  simp only [houter]
  rw [sum_map_ite fs (fun f' => f'.id == f.id) 1,
    countP_key_eq_one FixtureCase.id fs f hf hfm]

/-- C4 witness: the one-cell-per-triple count at a concrete two-scenario
universe. -/
theorem resolve_one_cell_per_triple_witness :
    (resolve [fixtureBothListsScenario] [toolA] [scenO0, scenO2]).countP
        (tripleKeyMatches fixtureBothListsScenario toolA scenO0) = 1 :=
  resolve_one_cell_per_triple [fixtureBothListsScenario] [toolA] [scenO0, scenO2]
    fixtureBothListsScenario toolA scenO0 (by decide) (by decide) (by decide)
    (List.mem_singleton.mpr rfl) (List.mem_singleton.mpr rfl) (by decide)

/-! ### Descriptor errors are fixture-scoped -/

/-- The fixture a raw corpus entry becomes once its descriptor parsed. -/
def mkFixture (r : RawFixture) (d : ScenarioDescriptor) : FixtureCase :=
  { id := r.id, sourceText := r.sourceText, descriptor := d }

lemma mem_loadCorpus_of_ok {raws : List RawFixture} {q : RawFixture} {d : ScenarioDescriptor}
    (hq : q ∈ raws) (hd : parseDescriptor q.block = .ok d) :
    mkFixture q d ∈ loadCorpus raws := by
  apply List.mem_filterMap.mpr
  exact ⟨q, hq, by rw [hd]; rfl⟩

/-- C7: a descriptor block that sets both `extra-flags` and `replace-flags`
(and is otherwise well-formed) fails to parse with `ConflictingFlagMode`;
every loaded fixture stems from a block that parsed — so the conflicted
fixture never participates — while every fixture whose block parses is
still loaded and still resolved to a cell for each (toolchain, scenario)
pair: the run continues. -/
theorem conflicting_flag_mode_is_fixture_scoped
    (raws : List RawFixture) (r : RawFixture) (_hr : r ∈ raws)
    (hx : "extra-flags" ∈ blockKeys r.block)
    (hrep : "replace-flags" ∈ blockKeys r.block)
    (hrec : ∀ k ∈ blockKeys r.block, k ∈ recognizedKeys)
    (hnd : (blockKeys r.block).Nodup) :
    parseDescriptor r.block = .error .conflictingFlagMode ∧
      (∀ fx ∈ loadCorpus raws, ∃ q ∈ raws,
        (∃ d, parseDescriptor q.block = .ok d ∧ fx = mkFixture q d)) ∧
      (∀ q ∈ raws, ∀ d, parseDescriptor q.block = .ok d →
        ∀ (ts : List ToolchainProfile) (ss : List OptimizationScenario),
          ∀ t ∈ ts, ∀ s ∈ ss,
            ∃ c ∈ resolve (loadCorpus raws) ts ss,
              c.fixtureId = q.id ∧ c.toolchainId = t.identifier ∧
                c.scenarioLabel = s.label) := by
  refine ⟨?_, ?_, ?_⟩
  · rw [parseDescriptor]
    rw [if_neg, if_neg, if_pos]
    · exact ⟨hx, hrep⟩
    · exact fun h => h hnd
    · rintro ⟨k, hk, hnotrec⟩
      exact hnotrec (hrec k hk)
  · intro fx hfx
    obtain ⟨q, hq, hmk⟩ := List.mem_filterMap.mp hfx
    refine ⟨q, hq, ?_⟩
    revert hmk
    cases hparse : parseDescriptor q.block with
    | ok d =>
      intro hmk
      refine ⟨d, rfl, ?_⟩
      simpa [mkFixture] using hmk.symm
    | error e =>
      intro hmk
      cases hmk
  · intro q hq d hd ts ss t ht s hs
    refine ⟨resolveCell (mkFixture q d) t s, ?_, rfl, rfl, rfl⟩
    exact mem_resolve.mpr ⟨mkFixture q d, mem_loadCorpus_of_ok hq hd, t, ht, s, hs, rfl⟩

/-- A raw fixture whose block sets both flag modes. -/
def rawConflicted : RawFixture :=
  { id := "fx-conflicted", block := [("extra-flags", "-a"), ("replace-flags", "-b")] }

/-- A raw fixture with an empty (hence valid) descriptor block. -/
def rawPlain : RawFixture :=
  { id := "fx-plain" }

/-- C7 witness: in a two-fixture run where one block sets both flag modes,
that block fails as `ConflictingFlagMode`, every loaded fixture stems from a
parsed block, and the other fixture still resolves against a concrete
toolchain and scenario. -/
theorem conflicting_flag_mode_is_fixture_scoped_witness :
    parseDescriptor rawConflicted.block = .error .conflictingFlagMode ∧
      (∀ fx ∈ loadCorpus [rawConflicted, rawPlain], ∃ q ∈ [rawConflicted, rawPlain],
        (∃ d, parseDescriptor q.block = .ok d ∧ fx = mkFixture q d)) ∧
      (∀ q ∈ [rawConflicted, rawPlain], ∀ d, parseDescriptor q.block = .ok d →
        ∀ (ts : List ToolchainProfile) (ss : List OptimizationScenario),
          ∀ t ∈ ts, ∀ s ∈ ss,
            ∃ c ∈ resolve (loadCorpus [rawConflicted, rawPlain]) ts ss,
              c.fixtureId = q.id ∧ c.toolchainId = t.identifier ∧
                c.scenarioLabel = s.label) :=
  conflicting_flag_mode_is_fixture_scoped [rawConflicted, rawPlain] rawConflicted
    (by decide) (by decide) (by decide) (by decide) (by decide)

/-! ### Regression detection -/

lemma sum_map_zero {α : Type} (l : List α) : (l.map fun _ => (0 : Nat)).sum = 0 := by
  induction l with
  | nil => rfl
  | cons a l ih => simp [ih]

lemma countP_le_of_imp {α : Type} (l : List α) (p q : α → Bool)
    (h : ∀ a ∈ l, p a = true → q a = true) : l.countP p ≤ l.countP q := by
  induction l with
  | nil => exact Nat.le_refl 0
  | cons a l ih =>
    rw [List.countP_cons, List.countP_cons]
    have hle := ih fun x hx => h x (List.mem_cons_of_mem a hx)
    by_cases hp : p a = true
    · rw [if_pos hp, if_pos (h a (List.mem_cons_self a l) hp)]
      omega
    · rw [if_neg hp]
      split <;> omega

lemma countP_pos_of_mem {α : Type} {l : List α} {a : α} (ha : a ∈ l) {p : α → Bool}
    (hp : p a = true) : 0 < l.countP p := by
  induction l with
  | nil => cases ha
  | cons b l ih =>
    rw [List.countP_cons]
    rcases List.mem_cons.mp ha with rfl | ha'
    · rw [if_pos hp]
      omega
    · have := ih ha'
      omega

lemma regressionPair_iff {a b : AssertionRecord} :
    regressionPair a b = true ↔
      a.fixtureId = b.fixtureId ∧ a.assertionId = b.assertionId ∧ a.vendor = b.vendor ∧
        a.version < b.version ∧ a.outcome = .pass ∧ b.outcome = .fail := by
  simp [regressionPair, Bool.and_eq_true, beq_iff_eq, decide_eq_true_eq, and_assoc]

/-- The Boolean test that a record carries the given fixture, assertion,
vendor and version. -/
def recKey (fid aid vend : String) (v : Nat) (x : AssertionRecord) : Bool :=
  x.fixtureId == fid && x.assertionId == aid && x.vendor == vend && x.version == v

lemma recKey_iff {fid aid vend : String} {v : Nat} {x : AssertionRecord} :
    recKey fid aid vend v x = true ↔
      x.fixtureId = fid ∧ x.assertionId = aid ∧ x.vendor = vend ∧ x.version = v := by
  simp [recKey, Bool.and_eq_true, beq_iff_eq, and_assoc]

lemma countP_regressionsOf (rs : List AssertionRecord) (target : Regression)
    (pa pb : AssertionRecord → Bool)
    (hiff : ∀ a b, (regressionPair a b = true ∧ mkRegression a b = target) ↔
      (pa a = true ∧ pb b = true)) :
    (regressionsOf rs).countP (fun x => x == target) = rs.countP pa * rs.countP pb := by
  rw [regressionsOf, countP_flatMap]
  have hinner : ∀ a : AssertionRecord,
      ((rs.flatMap fun b => if regressionPair a b then [mkRegression a b] else []).countP
        fun x => x == target) = if pa a = true then rs.countP pb else 0 := by
    intro a
    rw [countP_flatMap]
    have hterm : ∀ b : AssertionRecord,
        ((if regressionPair a b then [mkRegression a b] else []).countP
          fun x => x == target) = if (pa a && pb b) = true then 1 else 0 := by
      intro b
      by_cases hq : regressionPair a b = true
      · rw [if_pos hq]
        by_cases he : mkRegression a b = target
        · obtain ⟨h1, h2⟩ := (hiff a b).mp ⟨hq, he⟩
          rw [if_pos (Bool.and_eq_true_iff.mpr ⟨h1, h2⟩)]
          simp [List.countP_cons, he]
        · have hff : ¬ (pa a && pb b) = true := by
            intro hab
            obtain ⟨h1, h2⟩ := Bool.and_eq_true_iff.mp hab
            exact he ((hiff a b).mpr ⟨h1, h2⟩).2
          rw [if_neg hff]
          simp [List.countP_cons, he]
      · rw [if_neg hq]
        have hff : ¬ (pa a && pb b) = true := by
          intro hab
          obtain ⟨h1, h2⟩ := Bool.and_eq_true_iff.mp hab
          exact hq ((hiff a b).mpr ⟨h1, h2⟩).1
        rw [if_neg hff]
        rfl
    simp only [hterm]
    by_cases hpa : pa a = true
    · rw [if_pos hpa]
      have hrw : (fun b => if (pa a && pb b) = true then 1 else 0) =
          fun b => if pb b = true then 1 else 0 := by
        funext b
        simp [hpa]
      rw [hrw, sum_map_ite rs pb 1, Nat.mul_one]
    · rw [if_neg hpa]
      have hrw : (fun b => if (pa a && pb b) = true then 1 else 0) = fun _ => (0 : Nat) := by
        funext b
        simp [Bool.and_eq_true, hpa]
      rw [hrw]
      exact sum_map_zero rs
  simp only [hinner]
  rw [sum_map_ite rs pa (rs.countP pb)]

/-- C8: when a run's assertion records contain exactly one record for
(fixture, assertion, vendor, older version) — a Pass — and exactly one for
the same key at a newer version — a Fail — the aggregator reports exactly
one regression entry for that fixture, assertion and version transition;
and every reported regression stems from two records of the same vendor
family, so a Pass-to-Fail transition across vendor families is never
reported. -/
theorem regression_reported_exactly_once
    (rs : List AssertionRecord) (fid aid vend : String) (v1 v2 : Nat)
    (hv : v1 < v2)
    (h1 : rs.countP (recKey fid aid vend v1) = 1)
    (h1m : ({ fixtureId := fid, assertionId := aid, vendor := vend, version := v1,
              outcome := .pass } : AssertionRecord) ∈ rs)
    (h2 : rs.countP (recKey fid aid vend v2) = 1)
    (h2m : ({ fixtureId := fid, assertionId := aid, vendor := vend, version := v2,
              outcome := .fail } : AssertionRecord) ∈ rs) :
    ((regressionsOf rs).countP fun x =>
        x == ({ fixtureId := fid, assertionId := aid, vendor := vend, fromVersion := v1,
                toVersion := v2 } : Regression)) = 1 ∧
      ∀ r ∈ regressionsOf rs, ∃ a ∈ rs, ∃ b ∈ rs,
        a.vendor = b.vendor ∧ a.version < b.version ∧ a.outcome = .pass ∧
          b.outcome = .fail ∧ a.fixtureId = b.fixtureId ∧ a.assertionId = b.assertionId ∧
          r = mkRegression a b := by
  constructor
  · have hiff : ∀ a b, (regressionPair a b = true ∧ mkRegression a b =
        ({ fixtureId := fid, assertionId := aid, vendor := vend, fromVersion := v1,
           toVersion := v2 } : Regression)) ↔
        ((recKey fid aid vend v1 a && a.outcome == AssertionOutcome.pass) = true ∧
          (recKey fid aid vend v2 b && b.outcome == AssertionOutcome.fail) = true) := by
      intro a b
      constructor
      · rintro ⟨hq, he⟩
        obtain ⟨q1, q2, q3, q4, q5, q6⟩ := regressionPair_iff.mp hq
        simp only [mkRegression, Regression.mk.injEq] at he
        obtain ⟨e1, e2, e3, e4, e5⟩ := he
        refine ⟨Bool.and_eq_true_iff.mpr ⟨recKey_iff.mpr ⟨e1, e2, e3, e4⟩,
          beq_iff_eq.mpr q5⟩, Bool.and_eq_true_iff.mpr ⟨recKey_iff.mpr
          ⟨q1 ▸ e1, q2 ▸ e2, q3 ▸ e3, e5⟩, beq_iff_eq.mpr q6⟩⟩
      · rintro ⟨hpa, hpb⟩
        obtain ⟨hka, hoa⟩ := Bool.and_eq_true_iff.mp hpa
        obtain ⟨hkb, hob⟩ := Bool.and_eq_true_iff.mp hpb
        obtain ⟨a1, a2, a3, a4⟩ := recKey_iff.mp hka
        obtain ⟨b1, b2, b3, b4⟩ := recKey_iff.mp hkb
        refine ⟨regressionPair_iff.mpr ⟨by rw [a1, b1], by rw [a2, b2], by rw [a3, b3],
          by rw [a4, b4]; exact hv, beq_iff_eq.mp hoa, beq_iff_eq.mp hob⟩, ?_⟩
        simp only [mkRegression, Regression.mk.injEq]
        exact ⟨a1, a2, a3, a4, b4⟩
    rw [countP_regressionsOf rs _ _ _ hiff]
    have hpa1 : rs.countP
        (fun a => recKey fid aid vend v1 a && a.outcome == AssertionOutcome.pass) = 1 := by
      apply Nat.le_antisymm
      · have := countP_le_of_imp rs
          (fun a => recKey fid aid vend v1 a && a.outcome == AssertionOutcome.pass)
          (recKey fid aid vend v1)
          (fun a _ hpa => (Bool.and_eq_true_iff.mp hpa).1)
        omega
      · have := countP_pos_of_mem h1m (p := fun a =>
          recKey fid aid vend v1 a && a.outcome == AssertionOutcome.pass)
          (by simp [recKey])
        omega
    have hpb1 : rs.countP
        (fun b => recKey fid aid vend v2 b && b.outcome == AssertionOutcome.fail) = 1 := by
      apply Nat.le_antisymm
      · have := countP_le_of_imp rs
          (fun b => recKey fid aid vend v2 b && b.outcome == AssertionOutcome.fail)
          (recKey fid aid vend v2)
          (fun a _ hpa => (Bool.and_eq_true_iff.mp hpa).1)
        omega
      · have := countP_pos_of_mem h2m (p := fun b =>
          recKey fid aid vend v2 b && b.outcome == AssertionOutcome.fail)
          (by simp [recKey])
        omega
    rw [hpa1, hpb1]
  · intro r hr
    rw [regressionsOf] at hr
    obtain ⟨a, ha, hin⟩ := List.mem_flatMap.mp hr
    obtain ⟨b, hb, hin2⟩ := List.mem_flatMap.mp hin
    by_cases hq : regressionPair a b = true
    · rw [if_pos hq] at hin2
      obtain ⟨q1, q2, q3, q4, q5, q6⟩ := regressionPair_iff.mp hq
      exact ⟨a, ha, b, hb, q3, q4, q5, q6, q1, q2, List.mem_singleton.mp hin2⟩
    · rw [if_neg hq] at hin2
      cases hin2

/-- The spec's regression example: Pass on vendorA version 1. -/
def recPassV1 : AssertionRecord :=
  { fixtureId := "H", assertionId := "no-call-to-unsafe-copy", vendor := "vendorA",
    version := 1, outcome := .pass }

/-- The spec's regression example: Fail on vendorA version 2. -/
def recFailV2 : AssertionRecord :=
  { fixtureId := "H", assertionId := "no-call-to-unsafe-copy", vendor := "vendorA",
    version := 2, outcome := .fail }

/-- C8 witness: the spec's own example run — Pass on vendorA-v1, Fail on
vendorA-v2 — yields exactly one regression entry, and every entry stems from
a same-vendor pair. -/
theorem regression_reported_exactly_once_witness :
    ((regressionsOf [recPassV1, recFailV2]).countP fun x =>
        x == ({ fixtureId := "H", assertionId := "no-call-to-unsafe-copy",
                vendor := "vendorA", fromVersion := 1, toVersion := 2 } : Regression)) = 1 ∧
      ∀ r ∈ regressionsOf [recPassV1, recFailV2], ∃ a ∈ [recPassV1, recFailV2],
        ∃ b ∈ [recPassV1, recFailV2], a.vendor = b.vendor ∧ a.version < b.version ∧
          a.outcome = .pass ∧ b.outcome = .fail ∧ a.fixtureId = b.fixtureId ∧
          a.assertionId = b.assertionId ∧ r = mkRegression a b :=
  regression_reported_exactly_once [recPassV1, recFailV2] "H" "no-call-to-unsafe-copy"
    "vendorA" 1 2 (by decide) (by decide) (by decide) (by decide) (by decide)

/-! ### The corpus descriptor blocks -/

/-- C9: all ten `@gallery-hints` blocks of the fixture corpus parse into a
valid `ScenarioDescriptor` with no `DescriptorError`: only recognized keys,
each used at most once, no empty flag token, and never both `extra-flags`
and `replace-flags` in one descriptor. -/
theorem corpus_descriptors_all_parse :
    corpusBlocks.length = 10 ∧
      corpusBlocks.all (fun b => wellFormedParse (parseDescriptor b.2)) = true ∧
      ∀ b ∈ corpusBlocks,
        (blockKeys b.2).Nodup ∧ ∀ k ∈ blockKeys b.2, k ∈ recognizedKeys :=
  ⟨rfl, by decide, by decide⟩

/-- A parse outcome keeps verbatim flag replacement restricted to the two
MSVC toolchain identifiers: whenever the parsed descriptor sets
`replaceFlags`, its allow-list is exactly those two identifiers. -/
def replaceRestricted (e : Except DescriptorError ScenarioDescriptor) : Bool :=
  match e with
  | .error _ => true
  | .ok d =>
    !d.replaceFlags.isSome ||
      d.compilerOnly == ["vc_v19_44_VS17_14_x64", "vc_v19_44_VS17_14_x86"]

/-- C10: in every corpus descriptor that sets `replace-flags`, the
allow-list is exactly the two MSVC identifiers; and under the resolver, any
toolchain Included for such a descriptor necessarily matches one of those
two identifier patterns — verbatim replacement never applies to an
unrestricted toolchain universe. -/
theorem replace_flags_only_with_msvc_allow_list :
    corpusBlocks.all (fun b => replaceRestricted (parseDescriptor b.2)) = true ∧
      ∀ (f : FixtureCase) (t : ToolchainProfile) (s : OptimizationScenario),
        f.descriptor.compilerOnly = ["vc_v19_44_VS17_14_x64", "vc_v19_44_VS17_14_x86"] →
        (resolveCell f t s).inclusionState = .included →
        (matchesPattern "vc_v19_44_VS17_14_x64" t.identifier ||
          matchesPattern "vc_v19_44_VS17_14_x86" t.identifier) = true := by
  refine ⟨by decide, fun f t s hco hinc => ?_⟩
  rw [inclusionState_resolveCell] at hinc
  rw [inclusionOf] at hinc
  have hne : f.descriptor.compilerOnly ≠ [] := by
    rw [hco]
    exact List.cons_ne_nil _ _
  rw [if_pos hne] at hinc
  by_cases hany : f.descriptor.compilerOnly.any (fun p => matchesPattern p t.identifier) = true
  · rw [hco] at hany
    simpa [List.any_cons, Bool.or_eq_true] using hany
  · rw [if_neg hany] at hinc
    cases hinc

end Gallery
